import Mathlib

/-
Verification of the Myo SDK binding layer: the C++ Hub event dispatcher and
device registry (src/cxx/impl/Hub_impl.hpp), the ThrowOnError error wrapper
(detail/ThrowOnError.hpp), the Quaternion arithmetic (Quaternion.hpp), and the
libmyo C ABI contracts documented in libmyo.h.

Modelling conventions:
- An opaque libmyo event (libmyo_event_t) is observed by the wrapper code only
  through its accessor functions (libmyo_event_get_type, _get_myo,
  _get_timestamp, _get_firmware_version, _get_arm, _get_x_direction,
  _get_orientation, _get_accelerometer, _get_gyroscope, _get_pose, _get_rssi,
  _get_emg), so it is embedded as a record of those accessor results.
- A libmyo_myo_t device handle is an opaque pointer; it is embedded as a Nat,
  with 0 standing for the null pointer.
- A Myo* wrapper object is owned by the registry vector that created it;
  pointer identity is embedded as the index at which the object was appended.
- float payload fields are decoded losslessly (pure pass-through of the
  accessor result into the listener callback, no arithmetic), so they are
  embedded with the opaque carrier Int.
- A C++ exception escaping a function is embedded with Except.
-/

namespace myo

/-! ## libmyo C ABI data model (libmyo.h) -/

/-- Result codes of the C ABI, libmyo_result_t. -/
inductive ResultKind where
  | success
  | error
  | invalidArgument
  | runtime
deriving DecidableEq

/-- Event tags of the C ABI, libmyo_event_type_t. -/
inductive EventTag where
  | paired
  | unpaired
  | connected
  | disconnected
  | armSynced
  | armUnsynced
  | orientation
  | pose
  | rssi
  | unlocked
  | locked
  | emg
  | batteryLevel
  | warmupCompleted
deriving DecidableEq

/-- Handler return values of the C ABI, libmyo_handler_result_t. -/
inductive HandlerResult where
  | hContinue
  | hStop
deriving DecidableEq

/-- An opaque libmyo event, embedded as the record of its accessor results.
The wrapper never inspects an event other than through these accessors. -/
structure Event where
  myo : Nat
  tag : EventTag
  time : Nat
  fwMajor : Nat
  fwMinor : Nat
  fwPatch : Nat
  fwHwRev : Nat
  arm : Nat
  xdir : Nat
  orientX : Int
  orientY : Int
  orientZ : Int
  orientW : Int
  accelX : Int
  accelY : Int
  accelZ : Int
  gyroX : Int
  gyroY : Int
  gyroZ : Int
  pose : Nat
  rssi : Int
  emg : List Int
deriving DecidableEq

/-- Convenience constructor for an event with the given tag and device
handle and all payload accessors returning zero. -/
def mkEvent (tag : EventTag) (myo : Nat) : Event :=
  { myo := myo, tag := tag, time := 0, fwMajor := 0, fwMinor := 0, fwPatch := 0,
    fwHwRev := 0, arm := 0, xdir := 0, orientX := 0, orientY := 0, orientZ := 0,
    orientW := 0, accelX := 0, accelY := 0, accelZ := 0, gyroX := 0, gyroY := 0,
    gyroZ := 0, pose := 0, rssi := 0, emg := [] }

/-- The one C++ exception the dispatch path can raise: Myo::Myo (Myo_impl.hpp)
throws std::invalid_argument when constructed with a null libmyo_myo_t. -/
inductive DispatchError where
  | nullHandle
deriving DecidableEq

/-! ## Hub state and device registry (Hub.hpp / Hub_impl.hpp)

A Hub holds the registry _myos (std::vector of owned Myo*) and the
listener list _listeners (std::vector of DeviceListener*). Myo wrapper
objects are embedded by their handle value, their pointer identity by their
index in the registry; listeners are embedded by an identifying Nat. -/

structure Hub where
  myos : List Nat
  listeners : List Nat
deriving DecidableEq

/-- Index of the first element of the list equal to h, if any (the loop of
Hub::lookupMyo walks _myos front to back and stops at the first match). -/
def lookupIdx (h : Nat) : List Nat → Option Nat
  | [] => none
  | x :: xs => if x = h then some 0 else (lookupIdx h xs).map (fun i => i + 1)

/-- Hub::lookupMyo: return the first registered Myo whose libmyoObject()
equals the given opaque handle, or null. The returned Myo* is embedded as the
index of that registry slot. -/
def Hub.lookupMyo (hub : Hub) (opaqueMyo : Nat) : Option Nat :=
  lookupIdx opaqueMyo hub.myos

/-- Hub::addMyo: construct a new Myo wrapper (Myo::Myo throws
std::invalid_argument on a null handle, before anything is appended) and
push it onto _myos. Returns the new registry together with the new Myo*
(embedded as its index, the old registry length). -/
def Hub.addMyo (hub : Hub) (opaqueMyo : Nat) : Except DispatchError (Hub × Nat) :=
  if opaqueMyo = 0 then .error .nullHandle
  else .ok ({ hub with myos := hub.myos ++ [opaqueMyo] }, hub.myos.length)

/-! ## Listener callbacks (DeviceListener.hpp)

One constructor per listener method the dispatcher can invoke. The first
argument of each is the listener it is invoked on, the second the Myo*
argument (registry index). -/

inductive Call where
  | opaqueEvent (listener : Nat) (e : Event)
  | onPair (listener myoIdx time : Nat) (fw : Nat × Nat × Nat × Nat)
  | onUnpair (listener myoIdx time : Nat)
  | onConnect (listener myoIdx time : Nat) (fw : Nat × Nat × Nat × Nat)
  | onDisconnect (listener myoIdx time : Nat)
  | onArmSync (listener myoIdx time : Nat) (arm xdir : Nat)
  | onArmUnsync (listener myoIdx time : Nat)
  | onUnlock (listener myoIdx time : Nat)
  | onLock (listener myoIdx time : Nat)
  | onOrientationData (listener myoIdx time : Nat) (q : Int × Int × Int × Int)
  | onAccelerometerData (listener myoIdx time : Nat) (v : Int × Int × Int)
  | onGyroscopeData (listener myoIdx time : Nat) (v : Int × Int × Int)
  | onPose (listener myoIdx time : Nat) (pose : Nat)
  | onRssi (listener myoIdx time : Nat) (rssi : Int)
  | onEmgData (listener myoIdx time : Nat) (emg : List Int)
deriving DecidableEq

/-- The typed listener methods the switch of Hub::onDeviceEvent invokes on one
listener for one event, in source order. Note that an orientation event
produces three calls, and that the switch has no case for the
battery-level and warm-up-completed tags. -/
def typedCalls (l myoIdx : Nat) (e : Event) : List Call :=
  match e.tag with
  | .paired => [.onPair l myoIdx e.time (e.fwMajor, e.fwMinor, e.fwPatch, e.fwHwRev)]
  | .unpaired => [.onUnpair l myoIdx e.time]
  | .connected => [.onConnect l myoIdx e.time (e.fwMajor, e.fwMinor, e.fwPatch, e.fwHwRev)]
  | .disconnected => [.onDisconnect l myoIdx e.time]
  | .armSynced => [.onArmSync l myoIdx e.time e.arm e.xdir]
  | .armUnsynced => [.onArmUnsync l myoIdx e.time]
  | .unlocked => [.onUnlock l myoIdx e.time]
  | .locked => [.onLock l myoIdx e.time]
  | .orientation =>
      [.onOrientationData l myoIdx e.time (e.orientX, e.orientY, e.orientZ, e.orientW),
       .onAccelerometerData l myoIdx e.time (e.accelX, e.accelY, e.accelZ),
       .onGyroscopeData l myoIdx e.time (e.gyroX, e.gyroY, e.gyroZ)]
  | .pose => [.onPose l myoIdx e.time e.pose]
  | .rssi => [.onRssi l myoIdx e.time e.rssi]
  | .emg => [.onEmgData l myoIdx e.time
      [e.emg.getD 0 0, e.emg.getD 1 0, e.emg.getD 2 0, e.emg.getD 3 0,
       e.emg.getD 4 0, e.emg.getD 5 0, e.emg.getD 6 0, e.emg.getD 7 0]]
  | .batteryLevel => []
  | .warmupCompleted => []

/-- The dispatch loop body of Hub::onDeviceEvent: every registered listener,
in registration order, first receives onOpaqueEvent and then the typed
methods of the event tag. -/
def dispatchToListeners (listeners : List Nat) (myoIdx : Nat) (e : Event) : List Call :=
  listeners.flatMap (fun l => Call.opaqueEvent l e :: typedCalls l myoIdx e)

/-- Hub::onDeviceEvent: resolve the event's device handle in the registry,
register it if unknown and the tag is paired (which can throw for a null
handle), silently drop the event if still unresolved, and otherwise invoke
the listeners. Returns the new hub state and the sequence of listener
calls made. -/
def Hub.onDeviceEvent (hub : Hub) (e : Event) : Except DispatchError (Hub × List Call) :=
  match hub.lookupMyo e.myo with
  | some myoIdx => .ok (hub, dispatchToListeners hub.listeners myoIdx e)
  | none =>
    if e.tag = .paired then
      match hub.addMyo e.myo with
      | .error err => .error err
      | .ok (hub2, myoIdx) => .ok (hub2, dispatchToListeners hub2.listeners myoIdx e)
    else
      .ok (hub, [])

/-- Process a sequence of events through Hub::onDeviceEvent. A thrown
exception propagates out of the loop; the failed call has not modified the
hub (Myo::Myo throws before addMyo pushes anything). -/
def processEvents (hub : Hub) : List Event → Hub
  | [] => hub
  | e :: es =>
    match hub.onDeviceEvent e with
    | .ok (hub2, _) => processEvents hub2 es
    | .error _ => hub

/-! ## waitForMyo (Hub_impl.hpp)

Modelled from the spec: libmyo_run is implemented by the closed-source hub
service; libmyo.h documents that it delivers the pending events one at a
time to the handler, until the duration elapses or the handler returns
libmyo_handler_stop. One call to libmyo_run is therefore embedded as one
batch of events (the events arriving during its duration); the environment
of a blocking loop is a list of such batches, one per poll cycle. -/

/-- Possible outcomes of one Hub::waitForMyo call. -/
inductive WaitOutcome where
  | found (myoIdx : Nat)
  | notFound
  | threw
  | stillPolling
deriving DecidableEq

/-- The local handler of Hub::waitForMyo applied by one libmyo_run call to
one batch of events: a paired event calls Hub::addMyo unconditionally (no
registry lookup) and stops the run; every other event continues. Returns the
updated registry, or the exception escaping addMyo. -/
def waitBatch (hub : Hub) : List Event → Except DispatchError Hub
  | [] => .ok hub
  | e :: es =>
    if e.tag = .paired then
      match hub.addMyo e.myo with
      | .error err => .error err
      | .ok (hub2, _) => .ok hub2
    else
      waitBatch hub es

/-- The do/while loop of Hub::waitForMyo: run one poll cycle, and loop again
exactly while timeout_ms is zero and the registry has not grown past its
size at entry. An empty batch list means the loop demanded another poll
cycle with none left: the call is still blocked polling. -/
def waitLoop (timeout prevSize : Nat) (hub : Hub) : List (List Event) → WaitOutcome × Hub
  | [] => (.stillPolling, hub)
  | b :: bs =>
    match waitBatch hub b with
    | .error _ => (.threw, hub)
    | .ok hub2 =>
      if timeout = 0 ∧ hub2.myos.length ≤ prevSize then
        waitLoop timeout prevSize hub2 bs
      else if hub2.myos.length ≤ prevSize then
        (.notFound, hub2)
      else
        (.found (hub2.myos.length - 1), hub2)

/-- Hub::waitForMyo: record the registry size, poll until the loop condition
fails, then return null when nothing was added and _myos.back() otherwise. -/
def Hub.waitForMyo (hub : Hub) (timeout : Nat) (batches : List (List Event)) :
    WaitOutcome × Hub :=
  waitLoop timeout hub.myos.length hub batches

/-! ## Hub::run and Hub::runOnce (Hub_impl.hpp)

libmyo_run is again modelled from its libmyo.h contract: the handler is
called once per event until the batch is exhausted or it returns
libmyo_handler_stop. The count of handler invocations is returned. -/

/-- One libmyo_run call delivering a batch of events to a handler. -/
def libmyoRun (handler : Hub → Event → Except DispatchError (Hub × HandlerResult))
    (hub : Hub) : List Event → Except DispatchError (Hub × Nat)
  | [] => .ok (hub, 0)
  | e :: es =>
    match handler hub e with
    | .error err => .error err
    | .ok (hub2, .hStop) => .ok (hub2, 1)
    | .ok (hub2, .hContinue) =>
      match libmyoRun handler hub2 es with
      | .error err => .error err
      | .ok (hub3, n) => .ok (hub3, n + 1)

/-- The local handler of Hub::run: dispatch and always continue. -/
def runHandler (hub : Hub) (e : Event) : Except DispatchError (Hub × HandlerResult) :=
  match hub.onDeviceEvent e with
  | .error err => .error err
  | .ok (hub2, _) => .ok (hub2, .hContinue)

/-- The local handler of Hub::runOnce: dispatch and always stop. -/
def runOnceHandler (hub : Hub) (e : Event) : Except DispatchError (Hub × HandlerResult) :=
  match hub.onDeviceEvent e with
  | .error err => .error err
  | .ok (hub2, _) => .ok (hub2, .hStop)

/-- Hub::run over one poll cycle: returns the hub and the number of events
dispatched to the listeners. -/
def Hub.run (hub : Hub) (events : List Event) : Except DispatchError (Hub × Nat) :=
  libmyoRun runHandler hub events

/-- Hub::runOnce over one poll cycle. -/
def Hub.runOnce (hub : Hub) (events : List Event) : Except DispatchError (Hub × Nat) :=
  libmyoRun runOnceHandler hub events

/-! ## ThrowOnError (detail/ThrowOnError.hpp)

A wrapped ABI call receives the address of the _error member as its
libmyo_error_details_t out-parameter; when the full expression ends the
destructor inspects the handle and converts it into an exception. An
error-detail handle is embedded as its two accessor results
(libmyo_error_kind, libmyo_error_cstring); the null handle is none. -/

/-- The observable content of a non-null libmyo_error_details_t handle. -/
structure ErrorDetails where
  kind : ResultKind
  msg : String
deriving DecidableEq

/-- The C++ exceptions ThrowOnError can raise. -/
inductive Thrown where
  | runtimeError (msg : String)
  | invalidArgument (msg : String)
deriving DecidableEq

/-- ThrowOnError::~ThrowOnError: the exception thrown (if any) and whether
libmyo_free_error_details was called on the handle. -/
def throwOnError (err : Option ErrorDetails) : Option Thrown × Bool :=
  match err with
  | none => (none, false)
  | some d =>
    match d.kind with
    | .error => (some (.runtimeError d.msg), true)
    | .runtime => (some (.runtimeError d.msg), true)
    | .invalidArgument => (some (.invalidArgument d.msg), true)
    | .success => (none, false)

/-! ## Quaternion (Quaternion.hpp)

The C++ class is a template over the component type T; the claims about its
algebra concern exact (rational/real) component arithmetic, so it is
embedded over an arbitrary commutative ring. -/

structure Quaternion (T : Type) where
  x : T
  y : T
  z : T
  w : T

/-- Quaternion::operator*, component formulas exactly as in the source. -/
def Quaternion.mul {T : Type} [CommRing T] (a rhs : Quaternion T) : Quaternion T :=
  ⟨a.w * rhs.x + a.x * rhs.w + a.y * rhs.z - a.z * rhs.y,
   a.w * rhs.y - a.x * rhs.z + a.y * rhs.w + a.z * rhs.x,
   a.w * rhs.z + a.x * rhs.y - a.y * rhs.x + a.z * rhs.w,
   a.w * rhs.w - a.x * rhs.x - a.y * rhs.y - a.z * rhs.z⟩

/-! ## MAC address utilities (libmyo.h) -/

/-- Whether a character is a hexadecimal digit (either case). -/
def isHexChar (c : Char) : Bool :=
  (decide ('0' ≤ c) && decide (c ≤ '9'))
  || (decide ('A' ≤ c) && decide (c ≤ 'F'))
  || (decide ('a' ≤ c) && decide (c ≤ 'f'))

/-- Numeric value of a hexadecimal digit character. -/
def hexVal (c : Char) : Nat :=
  if decide ('0' ≤ c) && decide (c ≤ '9') then c.toNat - 48
  else if decide ('A' ≤ c) && decide (c ≤ 'F') then c.toNat - 55
  else c.toNat - 87

/-- Uppercase hexadecimal digit character for a value below 16. -/
def hexDigit (d : Nat) : Char :=
  if d < 10 then Char.ofNat (48 + d) else Char.ofNat (55 + d)

/-- The seventeen characters of the 00-00-00-00-00-00 form of a 48-bit
value, most significant byte first. -/
def macChars (m : Nat) : List Char :=
  [hexDigit (m / 16 ^ 11 % 16), hexDigit (m / 16 ^ 10 % 16), '-',
   hexDigit (m / 16 ^ 9 % 16), hexDigit (m / 16 ^ 8 % 16), '-',
   hexDigit (m / 16 ^ 7 % 16), hexDigit (m / 16 ^ 6 % 16), '-',
   hexDigit (m / 16 ^ 5 % 16), hexDigit (m / 16 ^ 4 % 16), '-',
   hexDigit (m / 16 ^ 3 % 16), hexDigit (m / 16 ^ 2 % 16), '-',
   hexDigit (m / 16 ^ 1 % 16), hexDigit (m / 16 ^ 0 % 16)]

/-- Whether a character sequence matches the 00-00-00-00-00-00 format:
six hyphen-separated pairs of hex digits. -/
def macFormatChars : List Char → Bool
  | [a1, a2, s1, b1, b2, s2, c1, c2, s3, d1, d2, s4, e1, e2, s5, f1, f2] =>
    (s1 == '-') && (s2 == '-') && (s3 == '-') && (s4 == '-') && (s5 == '-')
      && isHexChar a1 && isHexChar a2 && isHexChar b1 && isHexChar b2
      && isHexChar c1 && isHexChar c2 && isHexChar d1 && isHexChar d2
      && isHexChar e1 && isHexChar e2 && isHexChar f1 && isHexChar f2
  | _ => false

/-- The 48-bit value denoted by a well-formed character sequence, most
significant byte first. -/
def macValueChars : List Char → Nat
  | [a1, a2, _, b1, b2, _, c1, c2, _, d1, d2, _, e1, e2, _, f1, f2] =>
    ((((((((((hexVal a1 * 16 + hexVal a2) * 16 + hexVal b1) * 16 + hexVal b2) * 16
      + hexVal c1) * 16 + hexVal c2) * 16 + hexVal d1) * 16 + hexVal d2) * 16
      + hexVal e1) * 16 + hexVal e2) * 16 + hexVal f1) * 16 + hexVal f2
  | _ => 0

/-- Modelled from the spec: libmyo_mac_address_to_string is implemented by
the closed-source hub library; libmyo.h only documents that it returns the
hex string of the MAC address in the format 00-00-00-00-00-00. The opaque
libmyo_string_t with its libmyo_string_c_str accessor is collapsed into
String. -/
def libmyo_mac_address_to_string (m : Nat) : String :=
  String.mk (macChars m)

/-- Modelled from the spec: libmyo_string_to_mac_address is implemented by
the closed-source hub library; libmyo.h only documents that it parses a
string in the format 00-00-00-00-00-00 and returns 0 if the string does not
match the format. -/
def libmyo_string_to_mac_address (s : String) : Nat :=
  if macFormatChars s.data then macValueChars s.data else 0

/-! ## Helper notions used by the claim statements -/

/-- Number of typed listener methods the switch of Hub::onDeviceEvent
invokes per listener for a tag. -/
def tagArity : EventTag → Nat
  | .orientation => 3
  | .batteryLevel => 0
  | .warmupCompleted => 0
  | _ => 1

/-- Whether a call is one of the typed listener methods (anything except the
untyped onOpaqueEvent forwarding). -/
def isTypedCall : Call → Bool
  | .opaqueEvent _ _ => false
  | _ => true

/-- Whether a typed call is the listener method belonging to an event tag. -/
def callMatchesTag : Call → EventTag → Bool
  | .onPair _ _ _ _, .paired => true
  | .onUnpair _ _ _, .unpaired => true
  | .onConnect _ _ _ _, .connected => true
  | .onDisconnect _ _ _, .disconnected => true
  | .onArmSync _ _ _ _ _, .armSynced => true
  | .onArmUnsync _ _ _, .armUnsynced => true
  | .onUnlock _ _ _, .unlocked => true
  | .onLock _ _ _, .locked => true
  | .onOrientationData _ _ _ _, .orientation => true
  | .onAccelerometerData _ _ _ _, .orientation => true
  | .onGyroscopeData _ _ _ _, .orientation => true
  | .onPose _ _ _ _, .pose => true
  | .onRssi _ _ _ _, .rssi => true
  | .onEmgData _ _ _ _, .emg => true
  | _, _ => false

/-- The listener a call is invoked on. -/
def callListener : Call → Nat
  | .opaqueEvent l _ => l
  | .onPair l _ _ _ => l
  | .onUnpair l _ _ => l
  | .onConnect l _ _ _ => l
  | .onDisconnect l _ _ => l
  | .onArmSync l _ _ _ _ => l
  | .onArmUnsync l _ _ => l
  | .onUnlock l _ _ => l
  | .onLock l _ _ => l
  | .onOrientationData l _ _ _ => l
  | .onAccelerometerData l _ _ _ => l
  | .onGyroscopeData l _ _ _ => l
  | .onPose l _ _ _ => l
  | .onRssi l _ _ _ => l
  | .onEmgData l _ _ _ => l

/-- The listener calls of a dispatch result (none when it threw). -/
def callsOf : Except DispatchError (Hub × List Call) → List Call
  | .ok p => p.2
  | .error _ => []

/-- Whether an Except result is a success. -/
def exceptOk {α : Type} : Except DispatchError α → Bool
  | .ok _ => true
  | .error _ => false

/-! ## Helper lemmas -/

theorem lookupIdx_eq_none_iff (h : Nat) (l : List Nat) : lookupIdx h l = none ↔ h ∉ l := by
  induction l with
  | nil => simp [lookupIdx]
  | cons x xs ih =>
    simp only [lookupIdx, List.mem_cons]
    by_cases hx : x = h
    · subst hx
      simp
    · rw [if_neg hx, Option.map_eq_none', ih]
      constructor
      · intro hnx hc
        rcases hc with rfl | hm
        · exact hx rfl
        · exact hnx hm
      · intro hc hm
        exact hc (Or.inr hm)

theorem lookupIdx_append (h : Nat) (l : List Nat) (hn : h ∉ l) :
    lookupIdx h (l ++ [h]) = some l.length := by
  induction l with
  | nil => simp [lookupIdx]
  | cons x xs ih =>
    have hx : ¬(x = h) := fun e => hn (e ▸ List.mem_cons_self x xs)
    rw [List.cons_append]
    simp only [lookupIdx, if_neg hx,
      ih (fun hm => hn (List.mem_cons_of_mem _ hm))]
    rfl

theorem addMyo_eq_ok (hub : Hub) (x : Nat) (hx : x ≠ 0) :
    hub.addMyo x = .ok (⟨hub.myos ++ [x], hub.listeners⟩, hub.myos.length) := by
  simp [Hub.addMyo, hx]

theorem addMyo_eq_error (hub : Hub) : hub.addMyo 0 = .error .nullHandle := by
  simp [Hub.addMyo]

theorem onDeviceEvent_known (hub : Hub) (e : Event) (m : Nat)
    (hlk : hub.lookupMyo e.myo = some m) :
    hub.onDeviceEvent e = .ok (hub, dispatchToListeners hub.listeners m e) := by
  simp [Hub.onDeviceEvent, hlk]

theorem onDeviceEvent_unknown_paired (hub : Hub) (e : Event)
    (hlk : hub.lookupMyo e.myo = none) (ht : e.tag = .paired) (hm0 : e.myo ≠ 0) :
    hub.onDeviceEvent e
      = .ok (⟨hub.myos ++ [e.myo], hub.listeners⟩,
             dispatchToListeners hub.listeners hub.myos.length e) := by
  simp [Hub.onDeviceEvent, hlk, ht, addMyo_eq_ok hub e.myo hm0]

theorem onDeviceEvent_unknown_paired_null (hub : Hub) (e : Event)
    (hlk : hub.lookupMyo e.myo = none) (ht : e.tag = .paired) (hm0 : e.myo = 0) :
    hub.onDeviceEvent e = .error .nullHandle := by
  have hlk0 : hub.lookupMyo 0 = none := hm0 ▸ hlk
  simp [Hub.onDeviceEvent, hm0, hlk0, ht, Hub.addMyo]

theorem onDeviceEvent_unknown_other (hub : Hub) (e : Event)
    (hlk : hub.lookupMyo e.myo = none) (ht : e.tag ≠ .paired) :
    hub.onDeviceEvent e = .ok (hub, []) := by
  simp [Hub.onDeviceEvent, hlk, ht]

/-- The registry after one dispatched event: unchanged, or extended by
exactly the handle of a paired event that was not yet registered. -/
theorem onDeviceEvent_myos (hub : Hub) (e : Event) (p : Hub × List Call)
    (hok : hub.onDeviceEvent e = .ok p) :
    p.1.myos = hub.myos ∨
      (p.1.myos = hub.myos ++ [e.myo] ∧ e.tag = .paired ∧ e.myo ∉ hub.myos) := by
  cases hlk : hub.lookupMyo e.myo with
  | some m =>
    rw [onDeviceEvent_known hub e m hlk] at hok
    simp only [Except.ok.injEq] at hok
    subst hok
    exact Or.inl rfl
  | none =>
    by_cases ht : e.tag = .paired
    · by_cases hm0 : e.myo = 0
      · rw [onDeviceEvent_unknown_paired_null hub e hlk ht hm0] at hok
        cases hok
      · rw [onDeviceEvent_unknown_paired hub e hlk ht hm0] at hok
        simp only [Except.ok.injEq] at hok
        subst hok
        exact Or.inr ⟨rfl, ht, (lookupIdx_eq_none_iff e.myo hub.myos).mp hlk⟩
    · rw [onDeviceEvent_unknown_other hub e hlk ht] at hok
      simp only [Except.ok.injEq] at hok
      subst hok
      exact Or.inl rfl

theorem processEvents_nodup (es : List Event) (hub : Hub) (hnd : hub.myos.Nodup) :
    (processEvents hub es).myos.Nodup := by
  induction es generalizing hub with
  | nil => exact hnd
  | cons e es ih =>
    unfold processEvents
    cases hok : hub.onDeviceEvent e with
    | error err => exact hnd
    | ok p =>
      obtain ⟨hub2, calls⟩ := p
      show (processEvents hub2 es).myos.Nodup
      apply ih
      rcases onDeviceEvent_myos hub e (hub2, calls) hok with h1 | ⟨h2, _, hnm⟩
      · rw [show hub2.myos = hub.myos from h1]
        exact hnd
      · rw [show hub2.myos = hub.myos ++ [e.myo] from h2, List.nodup_append]
        refine ⟨hnd, List.nodup_singleton _, ?_⟩
        intro a ha hax
        exact hnm ((List.mem_singleton.mp hax) ▸ ha)

theorem processEvents_mem (es : List Event) (hub : Hub) (h : Nat)
    (hm : h ∈ (processEvents hub es).myos) :
    h ∈ hub.myos ∨ ∃ e ∈ es, e.tag = .paired ∧ e.myo = h := by
  induction es generalizing hub with
  | nil => exact Or.inl hm
  | cons e es ih =>
    unfold processEvents at hm
    cases hok : hub.onDeviceEvent e with
    | error err =>
      rw [hok] at hm
      exact Or.inl hm
    | ok p =>
      obtain ⟨hub2, calls⟩ := p
      rw [hok] at hm
      replace hm : h ∈ (processEvents hub2 es).myos := hm
      rcases ih hub2 hm with hmem | ⟨e2, he2, hp⟩
      · rcases onDeviceEvent_myos hub e (hub2, calls) hok with h1 | ⟨h2, ht, _⟩
        · rw [show hub2.myos = hub.myos from h1] at hmem
          exact Or.inl hmem
        · rw [show hub2.myos = hub.myos ++ [e.myo] from h2] at hmem
          rcases List.mem_append.mp hmem with hl | hr
          · exact Or.inl hl
          · exact Or.inr ⟨e, List.mem_cons_self e es, ht, (List.mem_singleton.mp hr).symm⟩
      · exact Or.inr ⟨e2, List.mem_cons_of_mem _ he2, hp⟩

theorem waitBatch_mem (b : List Event) (hub hub2 : Hub)
    (hok : waitBatch hub b = .ok hub2) (h : Nat) (hm : h ∈ hub2.myos) :
    h ∈ hub.myos ∨ ∃ e ∈ b, e.tag = .paired ∧ e.myo = h := by
  induction b generalizing hub with
  | nil =>
    simp only [waitBatch, Except.ok.injEq] at hok
    subst hok
    exact Or.inl hm
  | cons e es ih =>
    unfold waitBatch at hok
    by_cases ht : e.tag = .paired
    · rw [if_pos ht] at hok
      by_cases hm0 : e.myo = 0
      · rw [hm0, addMyo_eq_error hub] at hok
        cases hok
      · rw [addMyo_eq_ok hub e.myo hm0] at hok
        simp only [Except.ok.injEq] at hok
        subst hok
        rcases List.mem_append.mp hm with hl | hr
        · exact Or.inl hl
        · exact Or.inr ⟨e, List.mem_cons_self e es, ht, (List.mem_singleton.mp hr).symm⟩
    · rw [if_neg ht] at hok
      rcases ih hub hok with hl | ⟨e2, he2, hp⟩
      · exact Or.inl hl
      · exact Or.inr ⟨e2, List.mem_cons_of_mem _ he2, hp⟩

theorem waitLoop_mem (bs : List (List Event)) (t p : Nat) (hub : Hub) (h : Nat)
    (hm : h ∈ (waitLoop t p hub bs).2.myos) :
    h ∈ hub.myos ∨ ∃ b ∈ bs, ∃ e ∈ b, e.tag = .paired ∧ e.myo = h := by
  induction bs generalizing hub with
  | nil => exact Or.inl hm
  | cons b bs ih =>
    unfold waitLoop at hm
    cases hok : waitBatch hub b with
    | error err =>
      rw [hok] at hm
      exact Or.inl hm
    | ok hub2 =>
      rw [hok] at hm
      replace hm : h ∈ (if t = 0 ∧ hub2.myos.length ≤ p then waitLoop t p hub2 bs
          else if hub2.myos.length ≤ p then ((WaitOutcome.notFound : WaitOutcome), hub2)
          else (WaitOutcome.found (hub2.myos.length - 1), hub2)).2.myos := hm
      have key : h ∈ hub2.myos →
          h ∈ hub.myos ∨ ∃ b2 ∈ b :: bs, ∃ e ∈ b2, e.tag = .paired ∧ e.myo = h := by
        intro hmem
        rcases waitBatch_mem b hub hub2 hok h hmem with hl | ⟨e, he, hp⟩
        · exact Or.inl hl
        · exact Or.inr ⟨b, List.mem_cons_self b bs, e, he, hp⟩
      by_cases hc : t = 0 ∧ hub2.myos.length ≤ p
      · rw [if_pos hc] at hm
        rcases ih hub2 hm with hmem | ⟨b2, hb2, rest⟩
        · exact key hmem
        · exact Or.inr ⟨b2, List.mem_cons_of_mem _ hb2, rest⟩
      · rw [if_neg hc] at hm
        by_cases hle : hub2.myos.length ≤ p
        · rw [if_pos hle] at hm
          exact key hm
        · rw [if_neg hle] at hm
          exact key hm

theorem waitBatch_no_paired (b : List Event) (hub : Hub)
    (hnp : ∀ e ∈ b, e.tag ≠ .paired) : waitBatch hub b = .ok hub := by
  induction b with
  | nil => rfl
  | cons e es ih =>
    unfold waitBatch
    rw [if_neg (hnp e (List.mem_cons_self e es))]
    exact ih (fun x hx => hnp x (List.mem_cons_of_mem _ hx))

theorem waitLoop_no_paired (bs : List (List Event)) (hub : Hub) (p : Nat)
    (hp : hub.myos.length ≤ p) (hnp : ∀ b ∈ bs, ∀ e ∈ b, e.tag ≠ .paired) :
    waitLoop 0 p hub bs = (.stillPolling, hub) := by
  induction bs with
  | nil => rfl
  | cons b bs ih =>
    unfold waitLoop
    rw [waitBatch_no_paired b hub (hnp b (List.mem_cons_self b bs))]
    show (if 0 = 0 ∧ hub.myos.length ≤ p then waitLoop 0 p hub bs else _) = _
    rw [if_pos ⟨rfl, hp⟩]
    exact ih (fun b2 hb2 => hnp b2 (List.mem_cons_of_mem _ hb2))

theorem isHexChar_hexDigit (d : Nat) (h : d < 16) : isHexChar (hexDigit d) = true := by
  interval_cases d <;> decide

theorem hexVal_hexDigit (d : Nat) (h : d < 16) : hexVal (hexDigit d) = d := by
  interval_cases d <;> decide

theorem libmyoRun_stop_le_one
    (handler : Hub → Event → Except DispatchError (Hub × HandlerResult))
    (hstop : ∀ h2 e p, handler h2 e = .ok p → p.2 = .hStop)
    (hub : Hub) (events : List Event) (p : Hub × Nat)
    (hp : libmyoRun handler hub events = .ok p) : p.2 ≤ 1 := by
  cases events with
  | nil =>
    unfold libmyoRun at hp
    simp only [Except.ok.injEq] at hp
    subst hp
    exact Nat.zero_le 1
  | cons e es =>
    unfold libmyoRun at hp
    cases hok : handler hub e with
    | error err =>
      rw [hok] at hp
      simp at hp
    | ok q =>
      obtain ⟨h2, r⟩ := q
      have hr : r = .hStop := hstop hub e (h2, r) hok
      subst hr
      rw [hok] at hp
      simp only [Except.ok.injEq] at hp
      subst hp
      exact le_refl 1

theorem libmyoRun_continue_length
    (handler : Hub → Event → Except DispatchError (Hub × HandlerResult))
    (hcont : ∀ h2 e p, handler h2 e = .ok p → p.2 = .hContinue) :
    ∀ (events : List Event) (hub : Hub) (p : Hub × Nat),
      libmyoRun handler hub events = .ok p → p.2 = events.length := by
  intro events
  induction events with
  | nil =>
    intro hub p hp
    unfold libmyoRun at hp
    simp only [Except.ok.injEq] at hp
    subst hp
    rfl
  | cons e es ih =>
    intro hub p hp
    unfold libmyoRun at hp
    cases hok : handler hub e with
    | error err =>
      rw [hok] at hp
      simp at hp
    | ok q =>
      obtain ⟨h2, r⟩ := q
      have hr : r = .hContinue := hcont hub e (h2, r) hok
      subst hr
      rw [hok] at hp
      replace hp : (match libmyoRun handler h2 es with
          | .error err => (.error err : Except DispatchError (Hub × Nat))
          | .ok (hub3, n) => .ok (hub3, n + 1)) = .ok p := hp
      cases hrec : libmyoRun handler h2 es with
      | error err =>
        rw [hrec] at hp
        simp at hp
      | ok q2 =>
        obtain ⟨h3, n⟩ := q2
        rw [hrec] at hp
        simp only [Except.ok.injEq] at hp
        subst hp
        have hn : n = es.length := ih h2 (h3, n) hrec
        show n + 1 = es.length + 1
        omega

/-! ## Claims -/

/-- C1, counterexample: the claim that every event sequence processed by a
Hub (through onDeviceEvent or through waitForMyo) adds each device handle to
_myos at most once is false. The handler of waitForMyo calls addMyo on every
paired event without a registry lookup, so two waitForMyo calls that each
observe a paired event for handle 5 register it twice. -/
theorem waitForMyo_registers_duplicate_handle :
    ((Hub.waitForMyo   ((Hub.waitForMyo ⟨[], []⟩ 10 [[mkEvent .paired 5]]).2)
        10 [[mkEvent .paired 5]]).2).myos = [5, 5]
    ∧ ¬ ((Hub.waitForMyo ((Hub.waitForMyo ⟨[], []⟩ 10 [[mkEvent .paired 5]]).2)
        10 [[mkEvent .paired 5]]).2).myos.Nodup := by
  constructor
  · rfl
  · decide

/-- C1, amended: through onDeviceEvent dispatch a device handle is added to
the registry at most once (the registry stays duplicate-free from an empty
start), and only a paired event for that handle causes the registration, on
both the onDeviceEvent path and the waitForMyo path; but waitForMyo
registers on every paired event it handles, unconditionally, so a handle
paired again on that path is added again (see the counterexample). -/
theorem registration_discipline :
    (∀ es : List Event,
        (processEvents ⟨[], []⟩ es).myos.Nodup
        ∧ ∀ h ∈ (processEvents ⟨[], []⟩ es).myos,
            ∃ e ∈ es, e.tag = .paired ∧ e.myo = h)
    ∧ (∀ (t : Nat) (hub : Hub) (bs : List (List Event)) (h : Nat),
        h ∈ (hub.waitForMyo t bs).2.myos →
        h ∈ hub.myos ∨ ∃ b ∈ bs, ∃ e ∈ b, e.tag = .paired ∧ e.myo = h) := by
  constructor
  · intro es
    constructor
    · exact processEvents_nodup es ⟨[], []⟩ List.nodup_nil
    · intro h hm
      rcases processEvents_mem es ⟨[], []⟩ h hm with hin | hout
      · cases hin
      · exact hout
  · intro t hub bs h hm
    exact waitLoop_mem bs t hub.myos.length hub h hm

theorem registration_discipline_witness :
    (processEvents ⟨[], []⟩ [mkEvent .paired 7]).myos.Nodup
    ∧ (∃ e ∈ [mkEvent .paired 7], e.tag = .paired ∧ e.myo = 7)
    ∧ (7 ∈ (⟨[], []⟩ : Hub).myos
        ∨ ∃ b ∈ [[mkEvent .paired 7]], ∃ e ∈ b, e.tag = .paired ∧ e.myo = 7) :=
  ⟨(registration_discipline.1 [mkEvent .paired 7]).1,
   (registration_discipline.1 [mkEvent .paired 7]).2 7 (by decide),
   registration_discipline.2 10 ⟨[], []⟩ [[mkEvent .paired 7]] 7 (by decide)⟩

/-- C3, counterexample: the claim that waitForMyo called with a 0 ms timeout
and no pairing event returns a not-found indication without blocking past a
single poll cycle is false: with timeout_ms = 0 the do/while loop condition
stays true, so after one and even after two event-free poll cycles the call
is still polling and has not returned. -/
theorem waitForMyo_zero_timeout_blocks :
    (Hub.waitForMyo ⟨[], []⟩ 0 [[]]).1 = .stillPolling
    ∧ (Hub.waitForMyo ⟨[], []⟩ 0 [[], []]).1 = .stillPolling := by
  constructor
  · rfl
  · rfl

/-- C3, amended: a waitForMyo call with a NONZERO timeout and a poll cycle
producing no pairing event returns null after that single poll cycle with
the hub unchanged; with a 0 ms timeout the loop never exits while no pairing
event is produced, however many poll cycles run (it blocks until a Myo is
found, as documented in Hub.hpp). -/
theorem waitForMyo_timeout_semantics :
    (∀ (t : Nat) (hub : Hub) (b : List Event) (bs : List (List Event)),
        t ≠ 0 → (∀ e ∈ b, e.tag ≠ .paired) →
        hub.waitForMyo t (b :: bs) = (.notFound, hub))
    ∧ (∀ (hub : Hub) (bs : List (List Event)),
        (∀ b ∈ bs, ∀ e ∈ b, e.tag ≠ .paired) →
        hub.waitForMyo 0 bs = (.stillPolling, hub)) := by
  constructor
  · intro t hub b bs ht hnp
    unfold Hub.waitForMyo waitLoop
    rw [waitBatch_no_paired b hub hnp]
    show (if t = 0 ∧ hub.myos.length ≤ hub.myos.length then _
          else if hub.myos.length ≤ hub.myos.length then ((WaitOutcome.notFound : WaitOutcome), hub)
          else (WaitOutcome.found (hub.myos.length - 1), hub)) = ((WaitOutcome.notFound : WaitOutcome), hub)
    rw [if_neg (fun hc => ht hc.1), if_pos (le_refl hub.myos.length)]
  · intro hub bs hnp
    exact waitLoop_no_paired bs hub hub.myos.length (le_refl _) hnp

theorem waitForMyo_timeout_semantics_witness :
    Hub.waitForMyo ⟨[3], [1]⟩ 50 [[mkEvent .rssi 3]] = (.notFound, ⟨[3], [1]⟩)
    ∧ Hub.waitForMyo ⟨[3], [1]⟩ 0 [[mkEvent .rssi 3], []] = (.stillPolling, ⟨[3], [1]⟩) :=
  ⟨waitForMyo_timeout_semantics.1 50 ⟨[3], [1]⟩ [mkEvent .rssi 3] [] (by decide) (by decide),
   waitForMyo_timeout_semantics.2 ⟨[3], [1]⟩ [[mkEvent .rssi 3], []] (by decide)⟩

/-- C4, counterexample: the claim that every paired event carrying a handle
not present in the registry adds exactly one device is false at the null
handle 0: the handle is absent from the empty registry, yet dispatching the
paired event throws std::invalid_argument from the Myo constructor and adds
nothing. -/
theorem paired_null_handle_adds_nothing :
    (⟨[], []⟩ : Hub).lookupMyo 0 = none
    ∧ (⟨[], []⟩ : Hub).onDeviceEvent (mkEvent .paired 0) = .error .nullHandle := by
  constructor
  · rfl
  · rfl

/-- C4, amended: for every paired event carrying a NONNULL device handle not
present in the registry, dispatching it appends exactly one device to the
registry (the length grows by one) and a subsequent lookup with that handle
returns exactly the newly created device; a paired event with the null
handle instead throws and adds nothing. -/
theorem paired_unseen_registers_once (hub : Hub) (e : Event)
    (hlk : hub.lookupMyo e.myo = none) (ht : e.tag = .paired) (hm0 : e.myo ≠ 0) :
    hub.onDeviceEvent e
      = .ok (⟨hub.myos ++ [e.myo], hub.listeners⟩,
             dispatchToListeners hub.listeners hub.myos.length e)
    ∧ (hub.myos ++ [e.myo]).length = hub.myos.length + 1
    ∧ (⟨hub.myos ++ [e.myo], hub.listeners⟩ : Hub).lookupMyo e.myo
        = some hub.myos.length := by
  refine ⟨onDeviceEvent_unknown_paired hub e hlk ht hm0, by simp, ?_⟩
  exact lookupIdx_append e.myo hub.myos ((lookupIdx_eq_none_iff e.myo hub.myos).mp hlk)

theorem paired_unseen_registers_once_witness :
    (⟨[3], []⟩ : Hub).onDeviceEvent (mkEvent .paired 9)
      = .ok (⟨[3] ++ [9], []⟩, dispatchToListeners [] [3].length (mkEvent .paired 9))
    ∧ ([3] ++ [9] : List Nat).length = [3].length + 1
    ∧ (⟨[3] ++ [9], []⟩ : Hub).lookupMyo 9 = some [3].length :=
  paired_unseen_registers_once ⟨[3], []⟩ (mkEvent .paired 9) rfl rfl (by decide)

/-- C5: dispatching an event whose device handle is unknown to the registry
and whose tag is not paired invokes no listener method and leaves the hub
unchanged: the registry and the listener list are exactly as before and the
call sequence is empty. -/
theorem unknown_handle_nonpaired_noop (hub : Hub) (e : Event)
    (hlk : hub.lookupMyo e.myo = none) (ht : e.tag ≠ .paired) :
    hub.onDeviceEvent e = .ok (hub, []) :=
  onDeviceEvent_unknown_other hub e hlk ht

theorem unknown_handle_nonpaired_noop_witness :
    (⟨[], [1]⟩ : Hub).onDeviceEvent (mkEvent .rssi 187) = .ok (⟨[], [1]⟩, []) :=
  unknown_handle_nonpaired_noop ⟨[], [1]⟩ (mkEvent .rssi 187) rfl (by decide)

/-- C7, counterexample: the claim that the event-dispatch path cannot fail
for any event tag and any device handle value is false: a paired event whose
device handle is the null pointer reaches Hub::addMyo, and the Myo
constructor throws std::invalid_argument. -/
theorem dispatch_throws_on_null_paired :
    (⟨[], [1]⟩ : Hub).onDeviceEvent (mkEvent .paired 0) = .error .nullHandle
    ∧ exceptOk ((⟨[], [1]⟩ : Hub).onDeviceEvent (mkEvent .paired 0)) = false := by
  constructor
  · rfl
  · rfl

/-- C7, amended: Hub::onDeviceEvent performs no fallible operation for any
event whose device handle is nonnull or whose tag is not paired; the only
failing input is a paired event carrying the null handle (not yet looked-up
successfully), where the Myo constructor throws. -/
theorem dispatch_total_on_nonnull (hub : Hub) (e : Event)
    (h : e.myo ≠ 0 ∨ e.tag ≠ .paired) :
    exceptOk (hub.onDeviceEvent e) = true := by
  cases hlk : hub.lookupMyo e.myo with
  | some m =>
    rw [onDeviceEvent_known hub e m hlk]
    rfl
  | none =>
    by_cases ht : e.tag = .paired
    · have hm0 : e.myo ≠ 0 := by
        rcases h with hm | hnt
        · exact hm
        · exact absurd ht hnt
      rw [onDeviceEvent_unknown_paired hub e hlk ht hm0]
      rfl
    · rw [onDeviceEvent_unknown_other hub e hlk ht]
      rfl

theorem dispatch_total_on_nonnull_witness :
    exceptOk ((⟨[], []⟩ : Hub).onDeviceEvent (mkEvent .rssi 0)) = true :=
  dispatch_total_on_nonnull ⟨[], []⟩ (mkEvent .rssi 0) (Or.inr (by decide))

/-- C2, counterexample: the claim that a dispatched event invokes exactly
one listener method (the one matching its tag) on each registered listener
is false: an orientation event for a registered device invokes three typed
methods (onOrientationData, onAccelerometerData, onGyroscopeData) on the
single registered listener, in addition to onOpaqueEvent. -/
theorem orientation_dispatch_three_typed_calls :
    ((callsOf ((⟨[5], [1]⟩ : Hub).onDeviceEvent (mkEvent .orientation 5))).filter
        isTypedCall).length = 3
    ∧ ¬ ((callsOf ((⟨[5], [1]⟩ : Hub).onDeviceEvent (mkEvent .orientation 5))).filter
        isTypedCall).length = 1 := by
  constructor
  · rfl
  · decide

/-- C2, amended: for a dispatched event whose handle resolves to a
registered device, every registered listener, in registration order,
receives one onOpaqueEvent call followed by the typed calls of the event's
tag: three for orientation, none for battery-level and warm-up-completed,
exactly one for every other tag; every typed call matches the event's tag
and is invoked on that listener. -/
theorem dispatch_calls_per_listener (hub : Hub) (e : Event) (m : Nat)
    (hlk : hub.lookupMyo e.myo = some m) :
    hub.onDeviceEvent e = .ok (hub, dispatchToListeners hub.listeners m e)
    ∧ (∀ l, (typedCalls l m e).length = tagArity e.tag)
    ∧ (∀ l, ∀ c ∈ typedCalls l m e,
        isTypedCall c = true ∧ callMatchesTag c e.tag = true ∧ callListener c = l) := by
  refine ⟨onDeviceEvent_known hub e m hlk, ?_, ?_⟩
  · intro l
    cases htag : e.tag <;> simp [typedCalls, tagArity, htag]
  · intro l c hc
    cases htag : e.tag <;>
      simp only [typedCalls, htag, List.mem_cons, List.mem_singleton,
        List.not_mem_nil, or_false] at hc <;>
      first
        | exact hc.elim
        | (rcases hc with rfl | rfl | rfl <;> exact ⟨rfl, rfl, rfl⟩)

theorem dispatch_calls_per_listener_witness :
    (⟨[5], [1]⟩ : Hub).onDeviceEvent (mkEvent .orientation 5)
      = .ok (⟨[5], [1]⟩, dispatchToListeners [1] 0 (mkEvent .orientation 5)) :=
  (dispatch_calls_per_listener ⟨[5], [1]⟩ (mkEvent .orientation 5) 0 rfl).1

/-- C6: assuming the documented ABI contract that a failing call sets a
non-null error-detail handle whose kind is the returned result code and a
successful call leaves it null, the ThrowOnError destructor throws exactly
when the result code is non-success, with std::invalid_argument for the
invalid-argument code and std::runtime_error for the generic and runtime
codes, carrying the message of the error-detail accessor; the handle is
freed on the throwing path, and on success nothing is thrown and no handle
exists to leak. -/
theorem throwOnError_spec (code : ResultKind) (err : Option ErrorDetails)
    (habi1 : err = none ↔ code = .success)
    (habi2 : ∀ d, err = some d → d.kind = code) :
    ((throwOnError err).1.isSome ↔ code ≠ .success)
    ∧ (∀ d, err = some d →
        (throwOnError err).2 = true
        ∧ (code = .invalidArgument → (throwOnError err).1 = some (.invalidArgument d.msg))
        ∧ ((code = .error ∨ code = .runtime) → (throwOnError err).1 = some (.runtimeError d.msg)))
    ∧ (code = .success → throwOnError err = (none, false)) := by
  rcases err with _ | ⟨k, msg⟩
  · have hcode : code = .success := habi1.mp rfl
    subst hcode
    refine ⟨by simp [throwOnError], ?_, fun _ => rfl⟩
    intro d hd
    exact Option.noConfusion hd
  · have hk : k = code := habi2 ⟨k, msg⟩ rfl
    subst hk
    have hns : ¬ k = ResultKind.success := fun hket => Option.noConfusion (habi1.mpr hket)
    cases k with
    | success => exact absurd rfl hns
    | error =>
      refine ⟨⟨fun _ hket => ResultKind.noConfusion hket, fun _ => rfl⟩, ?_, fun hket => absurd hket hns⟩
      intro d hd
      injection hd with h2
      subst h2
      exact ⟨rfl, fun hket => ResultKind.noConfusion hket, fun _ => rfl⟩
    | invalidArgument =>
      refine ⟨⟨fun _ hket => ResultKind.noConfusion hket, fun _ => rfl⟩, ?_, fun hket => absurd hket hns⟩
      intro d hd
      injection hd with h2
      subst h2
      refine ⟨rfl, fun _ => rfl, ?_⟩
      intro hor
      rcases hor with hket | hket
      · exact ResultKind.noConfusion hket
      · exact ResultKind.noConfusion hket
    | runtime =>
      refine ⟨⟨fun _ hket => ResultKind.noConfusion hket, fun _ => rfl⟩, ?_, fun hket => absurd hket hns⟩
      intro d hd
      injection hd with h2
      subst h2
      exact ⟨rfl, fun hket => ResultKind.noConfusion hket, fun _ => rfl⟩

theorem throwOnError_spec_witness :
    (throwOnError (some ⟨.runtime, "boom"⟩)).2 = true
    ∧ (throwOnError (some ⟨.runtime, "boom"⟩)).1 = some (.runtimeError "boom") := by
  have h := throwOnError_spec .runtime (some ⟨.runtime, "boom"⟩)
    ⟨fun hd => Option.noConfusion hd, fun hket => ResultKind.noConfusion hket⟩
    (fun d hd => by injection hd with h2; subst h2; rfl)
  exact ⟨(h.2.1 ⟨.runtime, "boom"⟩ rfl).1, (h.2.1 ⟨.runtime, "boom"⟩ rfl).2.2 (Or.inr rfl)⟩

/-- C9: quaternion multiplication as implemented by Quaternion::operator*
is associative when the component type carries exact (rational) arithmetic. -/
theorem quaternion_mul_assoc (a b c : Quaternion ℚ) :
    (a.mul b).mul c = a.mul (b.mul c) := by
  rcases a with ⟨ax, ay, az, aw⟩
  rcases b with ⟨bx, bY, bz, bw⟩
  rcases c with ⟨cx, cy, cz, cw⟩
  simp only [Quaternion.mul, Quaternion.mk.injEq]
  refine ⟨by ring, by ring, by ring, by ring⟩

/-- C10: over the events delivered by a single poll call, Hub::runOnce
dispatches at most one event to the listeners, because its handler returns
libmyo_handler_stop after the first dispatch; Hub::run's handler always
returns libmyo_handler_continue, so a run that completes without an
exception dispatches every delivered event and never stops the poll
early. -/
theorem runOnce_dispatches_at_most_one (hub : Hub) (events : List Event) :
    (∀ p : Hub × Nat, hub.runOnce events = .ok p → p.2 ≤ 1)
    ∧ (∀ p : Hub × Nat, hub.run events = .ok p → p.2 = events.length) := by
  constructor
  · intro p hp
    refine libmyoRun_stop_le_one runOnceHandler ?_ hub events p hp
    intro h2 e q hq
    unfold runOnceHandler at hq
    cases hok : h2.onDeviceEvent e with
    | error err =>
      rw [hok] at hq
      simp at hq
    | ok r =>
      obtain ⟨h3, calls⟩ := r
      rw [hok] at hq
      simp only [Except.ok.injEq] at hq
      subst hq
      rfl
  · intro p hp
    refine libmyoRun_continue_length runHandler ?_ events hub p hp
    intro h2 e q hq
    unfold runHandler at hq
    cases hok : h2.onDeviceEvent e with
    | error err =>
      rw [hok] at hq
      simp at hq
    | ok r =>
      obtain ⟨h3, calls⟩ := r
      rw [hok] at hq
      simp only [Except.ok.injEq] at hq
      subst hq
      rfl

theorem runOnce_dispatches_at_most_one_witness :
    (⟨[5], []⟩ : Hub).runOnce [mkEvent .rssi 5, mkEvent .rssi 5] = .ok (⟨[5], []⟩, 1)
    ∧ (1 : Nat) ≤ 1
    ∧ (2 : Nat) = ([mkEvent .rssi 5, mkEvent .rssi 5] : List Event).length :=
  ⟨rfl,
   (runOnce_dispatches_at_most_one ⟨[5], []⟩ [mkEvent .rssi 5, mkEvent .rssi 5]).1
     (⟨[5], []⟩, 1) rfl,
   (runOnce_dispatches_at_most_one ⟨[5], []⟩ [mkEvent .rssi 5, mkEvent .rssi 5]).2
     (⟨[5], []⟩, 2) rfl⟩

set_option maxHeartbeats 1600000 in
/-- C8: encoding a 48-bit MAC address to its hyphen-separated hex string
with libmyo_mac_address_to_string and parsing the string back with
libmyo_string_to_mac_address yields the original value, and every string
that does not match the 00-00-00-00-00-00 format parses to zero. -/
theorem mac_address_roundtrip (m : Nat) (h : m < 2 ^ 48) :
    libmyo_string_to_mac_address (libmyo_mac_address_to_string m) = m
    ∧ ∀ s : String, macFormatChars s.data = false → libmyo_string_to_mac_address s = 0 := by
  constructor
  · have hlt : ∀ k : Nat, m / 16 ^ k % 16 < 16 := fun k => Nat.mod_lt _ (by norm_num)
    have hfmt : macFormatChars (macChars m) = true := by
      simp only [macChars, macFormatChars]
      rw [isHexChar_hexDigit _ (hlt 11), isHexChar_hexDigit _ (hlt 10),
          isHexChar_hexDigit _ (hlt 9), isHexChar_hexDigit _ (hlt 8),
          isHexChar_hexDigit _ (hlt 7), isHexChar_hexDigit _ (hlt 6),
          isHexChar_hexDigit _ (hlt 5), isHexChar_hexDigit _ (hlt 4),
          isHexChar_hexDigit _ (hlt 3), isHexChar_hexDigit _ (hlt 2),
          isHexChar_hexDigit _ (hlt 1), isHexChar_hexDigit _ (hlt 0)]
      decide
    have hval : macValueChars (macChars m) = m := by
      simp only [macChars, macValueChars]
      rw [hexVal_hexDigit _ (hlt 11), hexVal_hexDigit _ (hlt 10),
          hexVal_hexDigit _ (hlt 9), hexVal_hexDigit _ (hlt 8),
          hexVal_hexDigit _ (hlt 7), hexVal_hexDigit _ (hlt 6),
          hexVal_hexDigit _ (hlt 5), hexVal_hexDigit _ (hlt 4),
          hexVal_hexDigit _ (hlt 3), hexVal_hexDigit _ (hlt 2),
          hexVal_hexDigit _ (hlt 1), hexVal_hexDigit _ (hlt 0)]
      norm_num at h ⊢
      omega
    unfold libmyo_string_to_mac_address libmyo_mac_address_to_string
    have hdata : (String.mk (macChars m)).data = macChars m := rfl
    rw [hdata, hfmt, if_pos rfl]
    exact hval
  · intro s hf
    unfold libmyo_string_to_mac_address
    rw [hf]
    rfl

theorem mac_address_roundtrip_witness :
    (81985529216486 : Nat) < 2 ^ 48
    ∧ libmyo_string_to_mac_address (libmyo_mac_address_to_string 81985529216486)
        = 81985529216486 :=
  ⟨by norm_num, (mac_address_roundtrip 81985529216486 (by norm_num)).1⟩

end myo

